import Mathlib

/-!
Verification development for the OriginDetective repository.

The Python sources under `services/` are shallowly embedded as executable
Lean definitions:

* `services/manufacturers.py`   → `RegistryEntry`, `lookup`
* `services/hs_code_service.py` → `is_valid_hs_code`, `is_heading_6406`
* `services/fta_rules_engine.py`→ `RuleSetEntry`, `get_rules_for_hs_code`,
                                  `get_threshold_for_hs_code`
* `services/origin_analyzer.py` → `Row`, `Material`, `SessionState`, the
                                  step functions and `analyze_origin`

Modelling conventions:
* Python strings are `String`; an absent dictionary key or a `None` value is
  `Option.none`; Python truthiness of a string is `s ≠ ""`.
* Machine floats used for `cost_per_pair` are modelled as exact fractions (all inputs of
  interest are exact decimal fractions).  A spreadsheet cell that holds a
  non-numeric string is `CellVal.str`; `float()` applied to it raises, which
  is modelled with `Except`.
* Database rows (`MaterialAnalysis`) become values in a list carried by the
  session state; SQLAlchemy queries become list filters.
-/

namespace OriginDetective

/-! ## Exact rational numbers

The float arithmetic of step 7 (sums, a division, a percentage comparison)
is modelled with exact fractions.  A dedicated structure with fuel-driven
gcd normalization is used so every operation evaluates by kernel reduction
(all inputs of interest are exact decimal fractions, so this is faithful to
the float computation). -/

/-- Euclidean gcd driven by a fuel counter (structural recursion, so it
computes inside the kernel).  With fuel of at least `a + b + 1` it is the
mathematical gcd. -/
def gcdFuel : Nat → Nat → Nat → Nat
  | 0, _, b => b
  | _ + 1, 0, b => b
  | fuel + 1, a + 1, b => gcdFuel fuel (b % (a + 1)) (a + 1)

/-- Greatest common divisor via `gcdFuel` with sufficient fuel. -/
def natGcd (a b : Nat) : Nat := gcdFuel (a + b + 1) a b

/-- An exact fraction: integer numerator, natural denominator.  All
constructors used by the embedding produce the normalized representative
(positive denominator coprime to the numerator), so structural equality is
value equality. -/
structure Frac where
  num : Int
  den : Nat
deriving DecidableEq

/-- Normalize `n / d` by cancelling the gcd (for `d > 0`; the degenerate
`0 / 0` maps to itself and never arises in the workflow). -/
def Frac.norm (n : Int) (d : Nat) : Frac :=
  let g := natGcd n.natAbs d
  if g = 0 then ⟨0, 0⟩
  else
    let nn := n.natAbs / g
    ⟨if n < 0 then -(nn : Int) else (nn : Int), d / g⟩

/-- Embed a natural number. -/
def Frac.ofNat (n : Nat) : Frac := ⟨n, 1⟩

instance (n : Nat) : OfNat Frac n := ⟨Frac.ofNat n⟩

/-- Addition with renormalization. -/
def Frac.add (a b : Frac) : Frac :=
  Frac.norm (a.num * (b.den : Int) + b.num * (a.den : Int)) (a.den * b.den)

instance : Add Frac := ⟨Frac.add⟩

/-- Multiplication with renormalization. -/
def Frac.mul (a b : Frac) : Frac :=
  Frac.norm (a.num * b.num) (a.den * b.den)

instance : Mul Frac := ⟨Frac.mul⟩

/-- Reciprocal (of a normalized fraction; the reciprocal of zero is the
degenerate fraction, which the workflow never divides by). -/
def Frac.inv (a : Frac) : Frac :=
  if a.num < 0 then ⟨-(a.den : Int), a.num.natAbs⟩ else ⟨(a.den : Int), a.num.natAbs⟩

/-- Division as multiplication by the reciprocal. -/
def Frac.div (a b : Frac) : Frac := a.mul b.inv

instance : Div Frac := ⟨Frac.div⟩

/-- Order by cross multiplication (valid for the positive denominators the
workflow produces). -/
def Frac.le (a b : Frac) : Prop := a.num * (b.den : Int) ≤ b.num * (a.den : Int)

instance : LE Frac := ⟨Frac.le⟩

instance (a b : Frac) : Decidable (a ≤ b) :=
  inferInstanceAs (Decidable (a.num * (b.den : Int) ≤ b.num * (a.den : Int)))

/-- Strict order by cross multiplication. -/
def Frac.lt (a b : Frac) : Prop := a.num * (b.den : Int) < b.num * (a.den : Int)

instance : LT Frac := ⟨Frac.lt⟩

instance (a b : Frac) : Decidable (a < b) :=
  inferInstanceAs (Decidable (a.num * (b.den : Int) < b.num * (a.den : Int)))

/-- Left-fold sum of a list of fractions, mirroring the accumulation order
of the Python loops. -/
def Frac.lsum (l : List Frac) : Frac := l.foldl Frac.add 0

/-- Python `str.strip()` restricted to whitespace: drop leading and trailing
whitespace characters. -/
def pstrip (s : String) : String :=
  String.mk (((s.data.dropWhile Char.isWhitespace).reverse.dropWhile Char.isWhitespace).reverse)

/-- Python `str.lower()` (ASCII case folding, which covers all inputs the
services compare). -/
def plower (s : String) : String :=
  String.mk (s.data.map Char.toLower)

/-- Python `str.upper()` (ASCII case folding). -/
def pupper (s : String) : String :=
  String.mk (s.data.map Char.toUpper)

/-- Python `s.replace(' ', '').replace('.', '')`: since both patterns are
single characters this is exactly a character filter. -/
def stripSeparators (s : String) : String :=
  String.mk (s.data.filter (fun c => !(c == ' ' || c == '.')))

/-- Python `s.startswith(p)`. -/
def pstartswith (s p : String) : Bool :=
  p.data.isPrefixOf s.data

/-! ## services/manufacturers.py -/

/-- One row of `config/manufacturers.csv` after the rename patch in
`manufacturers.load` (fields absent from the file are the empty string). -/
structure RegistryEntry where
  manufacturer_id : String := ""
  name : String := ""
  country : String := ""
  country_code : String := ""
deriving DecidableEq

/-- `VN_NAMES` in `manufacturers.py`. -/
def VN_NAMES : List String := ["vietnam", "viet nam", "socialist republic of viet nam"]

/-- `VN_CODES` in `manufacturers.py`. -/
def VN_CODES : List String := ["vn"]

/-- `_norm` in `manufacturers.py`: `str(s).strip().lower()`, with `None`
becoming the empty string.  The analyzer passes either a stripped string or
`None`; both calling conventions are represented by a plain `String` argument,
the empty string standing for `None`. -/
def norm_str (s : String) : String := plower (pstrip s)

/-- Result of `manufacturers.lookup`. -/
structure LookupResult where
  found : Bool
  is_vietnam : Bool
  mtch : Option RegistryEntry
deriving DecidableEq

/-- `manufacturers.lookup(name, manufacturer_id)` over the loaded CSV `df`.
The candidate set starts as the whole table; it is narrowed by identifier
only when a non-empty identifier was supplied, and the name filter runs only
when the candidate set is empty at that point (replicating the source
exactly, including the consequence that a name-only query against a
non-empty table returns the first table row). -/
def lookup (df : List RegistryEntry) (name manufacturer_id : String) : LookupResult :=
  let name_n := norm_str name
  let id_n := norm_str manufacturer_id
  let cand := if id_n ≠ "" then df.filter (fun e => norm_str e.manufacturer_id = id_n) else df
  let cand := if name_n ≠ "" ∧ cand = [] then df.filter (fun e => norm_str e.name = name_n) else cand
  match cand with
  | [] => { found := false, is_vietnam := false, mtch := none }
  | e :: _ =>
      { found := true
        is_vietnam := (norm_str e.country_code ∈ VN_CODES) || (norm_str e.country ∈ VN_NAMES)
        mtch := some e }

/-! ## services/hs_code_service.py -/

/-- Semantics of Python `re.match(r'^\d{4,10}$', t)` being truthy: `t` is 4
to 10 decimal digits, optionally followed by one final newline (which `$`
tolerates). -/
def regex_digits_4_to_10 (t : String) : Bool :=
  let l := t.data
  let core := if l.getLast? = some '\n' then l.dropLast else l
  decide (4 ≤ core.length) && decide (core.length ≤ 10) && core.all Char.isDigit

/-- `HSCodeService.is_valid_hs_code`: falsy input is rejected, then spaces
and dots are removed and the result is matched against `^\d{4,10}$`. -/
def is_valid_hs_code (hs_code : String) : Bool :=
  if hs_code = "" then false
  else regex_digits_4_to_10 (stripSeparators hs_code)

/-- `HSCodeService.is_heading_6406`: falsy input is rejected, then spaces
and dots are removed before the prefix comparison with `"6406"`. -/
def is_heading_6406 (hs_code : String) : Bool :=
  if hs_code = "" then false
  else pstartswith (stripSeparators hs_code) "6406"

/-! ## services/fta_rules_engine.py -/

/-- One value of the FTA rules JSON object (`{description, rules[], threshold?}`). -/
structure RuleSetEntry where
  description : String := ""
  rules : List String := []
  threshold : Option Frac := none
deriving DecidableEq

/-- The loaded FTA rules JSON object: an association of keys to entries. -/
abbrev FTARuleTable := List (String × RuleSetEntry)

/-- `FTARulesEngine._get_default_rules`, the built-in fallback used when no
configuration file is present. -/
def default_fta_rules : FTARuleTable :=
  [ ("default",
     { description := "General rules for origin determination"
       rules :=
         [ "Manufacturing or processing must result in a change in tariff classification"
         , "Value-added content must meet minimum thresholds"
         , "Specific manufacturing processes may be required" ] })
  , ("6406",
     { description := "Parts of footwear; removable in-soles, heel cushions"
       rules :=
         [ "Non-originating materials must not exceed 10% of FOB value"
         , "Manufacturing must involve substantial transformation"
         , "Assembly and finishing operations must occur in the originating country" ]
       threshold := some 10 }) ]

/-- `FTARulesEngine.get_rules_for_hs_code`: falsy input resolves `default`
(empty entry if even that is absent); otherwise separators are stripped, an
exact key is tried, then the 4-digit heading key, then `default`. -/
def get_rules_for_hs_code (tbl : FTARuleTable) (hs_code : String) : RuleSetEntry :=
  if hs_code = "" then ((tbl.lookup "default").getD {})
  else
    let h := stripSeparators hs_code
    match tbl.lookup h with
    | some e => e
    | none =>
        let heading := if 4 ≤ h.length then String.mk (h.data.take 4) else h
        match tbl.lookup heading with
        | some e => e
        | none => ((tbl.lookup "default").getD {})

/-- `FTARulesEngine.get_threshold_for_hs_code`: the `threshold` field of the
resolved entry, defaulting to 10. -/
def get_threshold_for_hs_code (tbl : FTARuleTable) (hs_code : String) : Frac :=
  (get_rules_for_hs_code tbl hs_code).threshold.getD 10

/-- `FTARulesEngine.check_origin_compliance` (compliance flag only; the
echoed fields are the inputs themselves). -/
def check_origin_compliance (tbl : FTARuleTable) (hs_code : String)
    (non_originating_percentage : Frac) : Bool :=
  non_originating_percentage ≤ get_threshold_for_hs_code tbl hs_code

/-! ## services/origin_analyzer.py — data model -/

/-- A spreadsheet cell feeding `cost_per_pair`: either a number or a
non-numeric string (numeric strings are represented through `num`, since
`float()` succeeds on them). -/
inductive CellVal
  | num (q : Frac)
  | str (s : String)
deriving DecidableEq

/-- Python truthiness of a cost cell: `0`, `0.0` and `""` are falsy. -/
def CellVal.truthy : CellVal → Bool
  | .num q => q ≠ 0
  | .str s => s ≠ ""

/-- `float(v)` on a truthiness-checked cell; raises (models `ValueError`) on
a non-numeric string. -/
def CellVal.toFloat : CellVal → Except String Frac
  | .num q => .ok q
  | .str s => .error ("could not convert string to float: " ++ s)

/-- One normalized row produced by the tabular loader.  `none` models an
absent key (or a `None` value); a present string may still be falsy (`""`). -/
structure Row where
  manufacturer : Option String := none
  manufacturer_id : Option String := none
  manufacturer_country : Option String := none
  country_of_origin : Option String := none
  hs_code : Option String := none
  cost_per_pair : Option CellVal := none
  material_name : Option String := none
deriving DecidableEq

/-- Python truthiness of an optional string field. -/
def truthyStr : Option String → Bool
  | some s => s ≠ ""
  | none => false

/-- A `MaterialAnalysis` database record. -/
structure Material where
  material_name : String
  country_of_origin : String
  hs_code : String
  cost_per_pair : Option Frac
  is_problematic : Bool
  analysis_notes : String
deriving DecidableEq

/-- The four values `_finalize_analysis` stores in `final_result`. -/
inductive Verdict
  | originating
  | non_originating
  | incomplete
  | error
deriving DecidableEq

/-- The `reason` strings produced by the workflow, abstracted to carry their
parameters instead of interpolated text. -/
inductive Reason
  | manufacturerMissing
  | registryVietnam
  | registryNotVietnam
  | countryVietnam (country : String)
  | countryNotVietnam (country : String)
  | manufacturerUnverified
  | hsCodeNotFound
  | invalidHsCode (code : String)
  | noHeading6406Materials
  | pctWithinThreshold (p : Frac)
  | pctExceedsThreshold (p : Frac)
  | analysisError (msg : String)
deriving DecidableEq

/-- Whether a step lets the workflow continue, mirroring the `proceed`
field of the dictionaries the step helpers return (the `reason` of a
successful step is never read by `analyze_origin` and is dropped). -/
inductive StepRes
  | cont
  | halt (reason : Reason)
deriving DecidableEq

/-- Data of the step-7 audit record. -/
structure Step7Record where
  materials_6406 : List Material
  materials_6406_cost : Frac
  total_cost : Frac
  percentage : Frac
  missing_cost_data : List String
deriving DecidableEq

/-- The `AnalysisSession` database row combined with the analyzer object
state (`self.analysis_steps`, `self.missing_fields`) it mirrors into the
session.  The audit trail is tracked by its step numbers; `applicable_rules`
holds the rule set the step-3 record stores, `step7_record` the step-7
record data. -/
structure SessionState where
  manufacturer : Option String := none
  manufacturer_is_vietnamese : Option Bool := none
  final_hs_code : Option String := none
  final_result : Option Verdict := none
  result_reason : Option Reason := none
  session_missing_fields : List String := []
  completed : Bool := false
  gemini_explanation : Option String := none
  missing_data_analysis : Option String := none
  analysis_steps : List Nat := []
  applicable_rules : Option RuleSetEntry := none
  materials : List Material := []
  missing_fields : List String := []
  step7_record : Option Step7Record := none
deriving DecidableEq

/-! ## services/origin_analyzer.py — step 1 -/

/-- The first-truthy-value-wins scan over rows used for `manufacturer`,
`manufacturer_id` and `manufacturer_country` in step 1.  A truthy raw value
is stripped on assignment; if stripping yields `""` the accumulator stays
falsy and scanning continues, exactly as in the source loop. -/
def scanFirstField (get : Row → Option String) : List Row → String
  | [] => ""
  | r :: rs =>
      if truthyStr (get r) then
        let v := pstrip ((get r).getD "")
        if v = "" then scanFirstField get rs else v
      else scanFirstField get rs

/-- The `country_of_origin` fallback loop of step 1: the first truthy value
is stripped and taken, and the loop breaks (even if stripping yields `""`). -/
def fallbackCountry : List Row → String
  | [] => ""
  | r :: rs =>
      if truthyStr r.country_of_origin then pstrip (r.country_of_origin.getD "")
      else fallbackCountry rs

/-- The manufacturer country step 1 works with: the scanned
`manufacturer_country`, else the first truthy `country_of_origin`. -/
def step1_declared_country (data : List Row) : String :=
  let mc := scanFirstField Row.manufacturer_country data
  if mc = "" then fallbackCountry data else mc

/-- `OriginAnalyzer._step1_check_manufacturer`. -/
def step1_check_manufacturer (registry : List RegistryEntry) (data : List Row)
    (st : SessionState) : StepRes × SessionState :=
  let manufacturer := scanFirstField Row.manufacturer data
  let manufacturer_id := scanFirstField Row.manufacturer_id data
  let manufacturer_country := step1_declared_country data
  if manufacturer = "" ∧ manufacturer_id = "" then
    (.halt .manufacturerMissing,
     { st with missing_fields := st.missing_fields ++ ["manufacturer"] })
  else
    let st1 := if manufacturer ≠ "" then { st with manufacturer := some manufacturer } else st
    let csv := lookup registry manufacturer manufacturer_id
    if csv.found then
      let is_vn := csv.is_vietnam
      let st2 := { st1 with
        manufacturer_is_vietnamese := some is_vn
        analysis_steps := st1.analysis_steps ++ [1] }
      if is_vn then (.cont, st2) else (.halt .registryNotVietnam, st2)
    else if manufacturer_country ≠ "" then
      let country_norm := plower (pstrip manufacturer_country)
      let is_vn := country_norm ∈ ["vietnam", "viet nam"] ∨ country_norm = "vn"
      let st2 := { st1 with
        manufacturer_is_vietnamese := some is_vn
        analysis_steps := st1.analysis_steps ++ [1] }
      if is_vn then (.cont, st2)
      else (.halt (.countryNotVietnam manufacturer_country), st2)
    else
      (.halt .manufacturerUnverified,
       { st1 with
         missing_fields := st1.missing_fields ++ ["manufacturer_country (or manufacturers.csv entry)"]
         analysis_steps := st1.analysis_steps ++ [1] })

/-! ## steps 2 and 3 -/

/-- The `hs_codes` list collected by step 2: every truthy `hs_code` cell,
stripped, that is non-empty and not the text `nan`/`none`. -/
def step2_hs_codes (data : List Row) : List String :=
  data.filterMap (fun r =>
    match r.hs_code with
    | some s =>
        if s ≠ "" then
          let t := pstrip s
          if t ≠ "" ∧ plower t ∉ (["nan", "none", ""] : List String) then some t else none
        else none
    | none => none)

/-- `OriginAnalyzer._step2_find_hs_code`: the first collected HS code is the
final product code; missing or invalid codes halt the workflow. -/
def step2_find_hs_code (data : List Row) (st : SessionState) : StepRes × SessionState :=
  match step2_hs_codes data with
  | [] =>
      (.halt .hsCodeNotFound,
       { st with missing_fields := st.missing_fields ++ ["final_product_hs_code"] })
  | final :: _ =>
      if is_valid_hs_code final then
        (.cont,
         { st with
           final_hs_code := some final
           analysis_steps := st.analysis_steps ++ [2] })
      else (.halt (.invalidHsCode final), st)

/-- `OriginAnalyzer._step3_check_fta_rules`: records the applicable rule set
and appends the step-3 record; with a falsy final HS code it records nothing
(its failure result is ignored by `analyze_origin`).  Always proceeds. -/
def step3_check_fta_rules (tbl : FTARuleTable) (st : SessionState) : SessionState :=
  if st.final_hs_code.getD "" = "" then st
  else
    { st with
      applicable_rules := some (get_rules_for_hs_code tbl (st.final_hs_code.getD ""))
      analysis_steps := st.analysis_steps ++ [3] }

/-! ## step 4 -/

/-- `eu_countries` in `_step4_identify_materials`. -/
def eu_countries : List String :=
  [ "AT", "BE", "BG", "CY", "CZ", "DE", "DK", "EE", "ES", "FI"
  , "FR", "GR", "HR", "HU", "IE", "IT", "LT", "LU", "LV", "MT"
  , "NL", "PL", "PT", "RO", "SE", "SI", "SK" ]

/-- The `cost_per_pair` expression of the `MaterialAnalysis` constructor
call: `float(...) if row.get('cost_per_pair') else None`.  A falsy cell
(absent, `0`, `""`) yields `none`; a truthy non-numeric string raises. -/
def step4_cost (c : Option CellVal) : Except String (Option Frac) :=
  match c with
  | none => .ok none
  | some v => if v.truthy then (v.toFloat).map some else .ok none

/-- The row loop of `_step4_identify_materials`: rows lacking the
`country_of_origin` key are skipped, the country is stripped and upper-cased,
falsy or `NAN`/`NONE` countries are skipped, and a non-VN, non-EU country
creates a problematic `Material`.  A raise while converting the cost aborts
the loop with the materials added so far kept in the state. -/
def step4_loop (st : SessionState) : List Row → Except (String × SessionState) SessionState
  | [] => .ok st
  | r :: rs =>
      match r.country_of_origin with
      | none => step4_loop st rs
      | some raw =>
          let country := pupper (pstrip raw)
          if country = "" ∨ country ∈ (["NAN", "NONE", ""] : List String) then step4_loop st rs
          else if country ∉ (["VN", "VIETNAM"] : List String) ∧ country ∉ eu_countries then
            match step4_cost r.cost_per_pair with
            | .error msg => .error (msg, st)
            | .ok c =>
                let m : Material :=
                  { material_name := r.material_name.getD "Unknown"
                    country_of_origin := country
                    hs_code := r.hs_code.getD ""
                    cost_per_pair := c
                    is_problematic := true
                    analysis_notes := "Non-VN and non-EU material requiring further analysis" }
                step4_loop { st with materials := st.materials ++ [m] } rs
          else step4_loop st rs

/-- `OriginAnalyzer._step4_identify_materials`: run the row loop, then append
the step-4 record.  Always proceeds unless the loop raised. -/
def step4_identify_materials (data : List Row) (st : SessionState) :
    Except (String × SessionState) SessionState :=
  match step4_loop st data with
  | .error e => .error e
  | .ok st1 => .ok { st1 with analysis_steps := st1.analysis_steps ++ [4] }

/-! ## steps 5, 6 and 7 -/

/-- The per-material note/flag update of `_step5_check_material_hs_codes`. -/
def step5_update (m : Material) : Material × List String :=
  if m.is_problematic then
    if m.hs_code ≠ "" then
      if is_valid_hs_code m.hs_code then
        ({ m with analysis_notes := m.analysis_notes ++ " | HS code " ++ m.hs_code ++ " validated" }, [])
      else
        ({ m with analysis_notes := m.analysis_notes ++ " | Invalid HS code: " ++ m.hs_code },
         ["valid_hs_code_for_" ++ m.material_name])
    else
      ({ m with analysis_notes := m.analysis_notes ++ " | Missing HS code" },
       ["hs_code_for_" ++ m.material_name])
  else (m, [])

/-- `OriginAnalyzer._step5_check_material_hs_codes`: validate each
problematic material HS code, accumulate notes and missing-field flags, and
append the step-5 record.  Always proceeds. -/
def step5_check_material_hs_codes (st : SessionState) : SessionState :=
  { st with
    materials := st.materials.map (fun m => (step5_update m).1)
    missing_fields := st.missing_fields ++ (st.materials.map (fun m => (step5_update m).2)).flatten
    analysis_steps := st.analysis_steps ++ [5] }

/-- The materials step 6 collects: problematic, with a truthy HS code whose
raw text starts with `6406` (no separator stripping here, unlike
`HSCodeService.is_heading_6406`). -/
def step6_selected (st : SessionState) : List Material :=
  (st.materials.filter (fun m => m.is_problematic)).filter
    (fun m => m.hs_code ≠ "" && pstartswith m.hs_code "6406")

/-- `OriginAnalyzer._step6_check_heading_6406`: note the heading-6406
materials, append the step-6 record, and report whether any exist. -/
def step6_check_heading_6406 (st : SessionState) : Bool × SessionState :=
  let sel := step6_selected st
  (0 < sel.length,
   { st with
     materials := st.materials.map (fun m =>
       if m.is_problematic && (m.hs_code ≠ "" && pstartswith m.hs_code "6406") then
         { m with analysis_notes := m.analysis_notes ++ " | Falls under heading 6406" }
       else m)
     analysis_steps := st.analysis_steps ++ [6] })

/-- The SQL query of step 7: problematic materials whose HS code matches
`LIKE '6406%'`, i.e. whose raw text starts with `6406`. -/
def step7_selected (st : SessionState) : List Material :=
  st.materials.filter (fun m => m.is_problematic && pstartswith m.hs_code "6406")

/-- One iteration of the cost loop in `_step7_cost_analysis`: a material
with a cost adds it to the total (and to the heading-6406 sum when the
material is in the queried heading-6406 list, mirroring
`if material in materials_6406`); a material without a cost contributes to
neither sum and has its name recorded. -/
def step7_step (materials_6406 : List Material) (acc : Frac × Frac × List String)
    (m : Material) : Frac × Frac × List String :=
  match m.cost_per_pair with
  | some c =>
      ((if m ∈ materials_6406 then Frac.add acc.1 c else acc.1), Frac.add acc.2.1 c, acc.2.2)
  | none => (acc.1, acc.2.1, acc.2.2 ++ [m.material_name])

/-- `OriginAnalyzer._step7_cost_analysis`: one pass over all session
materials accumulating the heading-6406 cost, the total cost and the names
of materials without a cost; the percentage is 0 when the total is not
positive. -/
def step7_cost_analysis (st : SessionState) : Step7Record × SessionState :=
  let materials_6406 := step7_selected st
  let acc := st.materials.foldl (step7_step materials_6406) (0, 0, [])
  let materials_6406_cost := acc.1
  let total_cost := acc.2.1
  let missing_cost_data := acc.2.2
  let percentage := if 0 < total_cost then materials_6406_cost / total_cost * 100 else 0
  let rec7 : Step7Record :=
    { materials_6406 := materials_6406
      materials_6406_cost := materials_6406_cost
      total_cost := total_cost
      percentage := percentage
      missing_cost_data := missing_cost_data }
  (rec7,
   { st with
     missing_fields := st.missing_fields ++ missing_cost_data.map (fun n => "cost_per_pair_for_" ++ n)
     analysis_steps := st.analysis_steps ++ [7]
     step7_record := some rec7 })

/-! ## finalization and the main workflow -/

/-- Behavior of the enrichment `try` block in `_finalize_analysis` as an
oracle: it may raise during the first generation call, raise during the
second (after the first returned), or complete, each call returning an
optional text (a falsy text is not stored). -/
inductive EnrichBehavior
  | raiseOnExplanation
  | raiseOnMissingAnalysis (explanation : Option String)
  | ok (explanation : Option String) (missingAnalysis : Option String)
deriving DecidableEq

/-- `if explanation: session.gemini_explanation = explanation`. -/
def setExplanation (st : SessionState) (e : Option String) : SessionState :=
  match e with
  | some t => if t ≠ "" then { st with gemini_explanation := some t } else st
  | none => st

/-- `if missing_analysis: session.missing_data_analysis = missing_analysis`. -/
def setMissingAnalysis (st : SessionState) (e : Option String) : SessionState :=
  match e with
  | some t => if t ≠ "" then { st with missing_data_analysis := some t } else st
  | none => st

/-- `OriginAnalyzer._finalize_analysis`: store verdict, reason, missing
fields and the completion flag, then attempt enrichment; a raise anywhere in
the enrichment block is swallowed.  The second generation call runs only
when there are missing fields. -/
def finalize_analysis (bhv : EnrichBehavior) (st : SessionState)
    (result : Verdict) (reason : Reason) : SessionState :=
  let st1 := { st with
    final_result := some result
    result_reason := some reason
    session_missing_fields := st.missing_fields
    completed := true }
  match bhv with
  | .raiseOnExplanation => st1
  | .raiseOnMissingAnalysis e => setExplanation st1 e
  | .ok e ma =>
      let st2 := setExplanation st1 e
      if st1.missing_fields ≠ [] then setMissingAnalysis st2 ma else st2

/-- `OriginAnalyzer.analyze_origin`: the seven-step workflow with its
short-circuits, the step-4 raise caught at the workflow boundary as verdict
`error`, and the hardcoded `percentage <= 10` final comparison. -/
def analyze_origin (registry : List RegistryEntry) (tbl : FTARuleTable)
    (bhv : EnrichBehavior) (data : List Row) : SessionState :=
  match step1_check_manufacturer registry data {} with
  | (.halt reason, st) => finalize_analysis bhv st .non_originating reason
  | (.cont, st) =>
    match step2_find_hs_code data st with
    | (.halt reason, st) => finalize_analysis bhv st .incomplete reason
    | (.cont, st) =>
      let st := step3_check_fta_rules tbl st
      match step4_identify_materials data st with
      | .error (msg, st) => finalize_analysis bhv st .error (.analysisError msg)
      | .ok st =>
        let st := step5_check_material_hs_codes st
        match step6_check_heading_6406 st with
        | (has6406, st) =>
          if has6406 then
            match step7_cost_analysis st with
            | (rec7, st) =>
              if rec7.percentage ≤ 10 then
                finalize_analysis bhv st .originating (.pctWithinThreshold rec7.percentage)
              else
                finalize_analysis bhv st .non_originating (.pctExceedsThreshold rec7.percentage)
          else finalize_analysis bhv st .originating .noHeading6406Materials

/-! ## Helper lemmas about finalization -/

/-- Finalization stores exactly the verdict, reason, missing-field list and
completion flag it was given, and touches no other field except the two
enrichment texts, whatever the enrichment oracle does. -/
theorem finalize_spec (bhv : EnrichBehavior) (st : SessionState)
    (v : Verdict) (r : Reason) :
    (finalize_analysis bhv st v r).final_result = some v ∧
    (finalize_analysis bhv st v r).result_reason = some r ∧
    (finalize_analysis bhv st v r).session_missing_fields = st.missing_fields ∧
    (finalize_analysis bhv st v r).completed = true ∧
    (finalize_analysis bhv st v r).manufacturer = st.manufacturer ∧
    (finalize_analysis bhv st v r).manufacturer_is_vietnamese = st.manufacturer_is_vietnamese ∧
    (finalize_analysis bhv st v r).final_hs_code = st.final_hs_code ∧
    (finalize_analysis bhv st v r).analysis_steps = st.analysis_steps ∧
    (finalize_analysis bhv st v r).applicable_rules = st.applicable_rules ∧
    (finalize_analysis bhv st v r).materials = st.materials ∧
    (finalize_analysis bhv st v r).missing_fields = st.missing_fields ∧
    (finalize_analysis bhv st v r).step7_record = st.step7_record := by
  rcases bhv with _ | e | ⟨e, ma⟩ <;>
    simp only [finalize_analysis, setExplanation, setMissingAnalysis] <;>
    repeat' first
      | split
      | simp

/-! ## Helper lemmas about the audit trail of each step -/

/-- Exhaustive description of what step 1 does to the audit trail: a halting
step 1 leaves the trail alone or appends its record; a continuing step 1
always appends its record. -/
theorem step1_shape (reg : List RegistryEntry) (data : List Row) (st : SessionState) :
    ((step1_check_manufacturer reg data st).1 ≠ .cont ∧
      (((step1_check_manufacturer reg data st).2).analysis_steps = st.analysis_steps ∨
       ((step1_check_manufacturer reg data st).2).analysis_steps = st.analysis_steps ++ [1])) ∨
    ((step1_check_manufacturer reg data st).2).analysis_steps = st.analysis_steps ++ [1] := by
  simp only [step1_check_manufacturer]
  repeat' first
    | exact Or.inl ⟨fun hh => StepRes.noConfusion hh, Or.inl rfl⟩
    | exact Or.inl ⟨fun hh => StepRes.noConfusion hh, Or.inr rfl⟩
    | exact Or.inr rfl
    | split

/-- Every HS code collected by step 2 is non-empty. -/
theorem step2_hs_codes_ne (data : List Row) :
    ∀ x ∈ step2_hs_codes data, x ≠ "" := by
  intro x hx
  simp only [step2_hs_codes, List.mem_filterMap] at hx
  obtain ⟨r, _, hr⟩ := hx
  rcases h : r.hs_code with _ | s <;> rw [h] at hr
  · simp at hr
  · by_cases hs : s = ""
    · simp [hs] at hr
    · simp only [hs, if_pos, if_neg, ne_eq, not_false_iff] at hr
      split at hr
      · obtain rfl := Option.some.inj hr
        simp_all
      · simp at hr

/-- Exhaustive description of step 2: a halting step 2 leaves the trail
alone; a continuing step 2 appends its record and stores a non-empty final
HS code. -/
theorem step2_shape (data : List Row) (st : SessionState) :
    ((step2_find_hs_code data st).1 ≠ .cont ∧
      ((step2_find_hs_code data st).2).analysis_steps = st.analysis_steps) ∨
    (((step2_find_hs_code data st).2).analysis_steps = st.analysis_steps ++ [2] ∧
      ((step2_find_hs_code data st).2).final_hs_code.getD "" ≠ "") := by
  rcases hc : step2_hs_codes data with _ | ⟨final, rest⟩
  · simp only [step2_find_hs_code, hc]
    exact Or.inl ⟨fun hh => StepRes.noConfusion hh, trivial⟩
  · simp only [step2_find_hs_code, hc]
    split
    · refine Or.inr ⟨rfl, ?_⟩
      have hne : final ≠ "" :=
        step2_hs_codes_ne data final (by rw [hc]; exact List.mem_cons_self _ _)
      simpa using hne
    · exact Or.inl ⟨fun hh => StepRes.noConfusion hh, rfl⟩

/-- When a non-empty final HS code is present, step 3 appends exactly its
step record. -/
theorem step3_trail (tbl : FTARuleTable) (st : SessionState)
    (h : st.final_hs_code.getD "" ≠ "") :
    (step3_check_fta_rules tbl st).analysis_steps = st.analysis_steps ++ [3] := by
  simp only [step3_check_fta_rules, if_neg h]

/-- The step-4 row loop never touches the audit trail, whether it completes
or raises. -/
theorem step4_loop_trail (rows : List Row) : ∀ st : SessionState,
    (∀ e, step4_loop st rows = .error e → e.2.analysis_steps = st.analysis_steps) ∧
    (∀ st1, step4_loop st rows = .ok st1 → st1.analysis_steps = st.analysis_steps) := by
  induction rows with
  | nil =>
      intro st
      constructor
      · intro e he; simp [step4_loop] at he
      · intro st1 h
        simp only [step4_loop] at h
        cases h
        rfl
  | cons r rs ih =>
      intro st
      constructor
      · intro e he
        simp only [step4_loop] at he
        repeat' split at he
        all_goals first
          | (cases he; rfl)
          | (refine Eq.trans ((ih _).1 e he) ?_; rfl)
      · intro st1 h
        simp only [step4_loop] at h
        repeat' split at h
        all_goals first
          | cases h
          | (refine Eq.trans ((ih _).2 st1 h) ?_; rfl)

/-- A completing step 4 appends exactly its step record. -/
theorem step4_ok_trail (data : List Row) (st st1 : SessionState)
    (h : step4_identify_materials data st = .ok st1) :
    st1.analysis_steps = st.analysis_steps ++ [4] := by
  simp only [step4_identify_materials] at h
  split at h
  · cases h
  · cases h
    have := (step4_loop_trail data st).2 _ (by assumption)
    simpa using this

/-- A raising step 4 leaves the trail untouched. -/
theorem step4_err_trail (data : List Row) (st : SessionState) (e : String × SessionState)
    (h : step4_identify_materials data st = .error e) :
    e.2.analysis_steps = st.analysis_steps := by
  simp only [step4_identify_materials] at h
  split at h
  · cases h
    exact (step4_loop_trail data st).1 _ (by assumption)
  · cases h

/-- Step 5 appends exactly its step record. -/
theorem step5_trail (st : SessionState) :
    (step5_check_material_hs_codes st).analysis_steps = st.analysis_steps ++ [5] := rfl

/-- Step 6 appends exactly its step record. -/
theorem step6_trail (st : SessionState) :
    ((step6_check_heading_6406 st).2).analysis_steps = st.analysis_steps ++ [6] := rfl

/-- Step 7 appends exactly its step record. -/
theorem step7_trail (st : SessionState) :
    ((step7_cost_analysis st).2).analysis_steps = st.analysis_steps ++ [7] := rfl

/-- Step 7 stores its record data in the session state. -/
theorem step7_record_set (st : SessionState) :
    ((step7_cost_analysis st).2).step7_record = some (step7_cost_analysis st).1 := rfl

/-- Finalization does not change the audit trail. -/
theorem finalize_trail (bhv : EnrichBehavior) (st : SessionState) (v : Verdict) (r : Reason) :
    (finalize_analysis bhv st v r).analysis_steps = st.analysis_steps :=
  (finalize_spec bhv st v r).2.2.2.2.2.2.2.1

/-- Finalization stores the verdict it is given. -/
theorem finalize_result (bhv : EnrichBehavior) (st : SessionState) (v : Verdict) (r : Reason) :
    (finalize_analysis bhv st v r).final_result = some v :=
  (finalize_spec bhv st v r).1

/-- Finalization does not change the step-7 record. -/
theorem finalize_step7record (bhv : EnrichBehavior) (st : SessionState) (v : Verdict) (r : Reason) :
    (finalize_analysis bhv st v r).step7_record = st.step7_record :=
  (finalize_spec bhv st v r).2.2.2.2.2.2.2.2.2.2.2

/-- Finalization copies the analyzer missing-field list into the session. -/
theorem finalize_missing (bhv : EnrichBehavior) (st : SessionState) (v : Verdict) (r : Reason) :
    (finalize_analysis bhv st v r).session_missing_fields = st.missing_fields :=
  (finalize_spec bhv st v r).2.2.1

/-- Master case analysis of a full run of `analyze_origin`: either the run
stopped before step 7 and the audit trail is the range of the steps it
completed (at most 6 of them), or the run reached step 7, the trail is
exactly `1..7`, the step-7 record is stored, and the final verdict is the
hardcoded inclusive comparison of the computed percentage with 10. -/
theorem analyze_shape (reg : List RegistryEntry) (tbl : FTARuleTable)
    (bhv : EnrichBehavior) (data : List Row) :
    (∃ k, k ≤ 6 ∧ (analyze_origin reg tbl bhv data).analysis_steps = List.range' 1 k) ∨
    ((analyze_origin reg tbl bhv data).analysis_steps = List.range' 1 7 ∧
     ∃ r7, (analyze_origin reg tbl bhv data).step7_record = some r7 ∧
       (analyze_origin reg tbl bhv data).final_result =
         some (if r7.percentage ≤ 10 then Verdict.originating else Verdict.non_originating)) := by
  unfold analyze_origin
  rcases h1 : step1_check_manufacturer reg data {} with ⟨r1, st1⟩
  have hs1 := step1_shape reg data {}
  rw [h1] at hs1
  cases r1 with
  | halt reason =>
      dsimp only
      left
      rcases hs1 with ⟨_, htr | htr⟩ | htr
      · exact ⟨0, by norm_num, by rw [finalize_trail]; exact htr⟩
      · exact ⟨1, by norm_num, by rw [finalize_trail]; exact htr⟩
      · exact ⟨1, by norm_num, by rw [finalize_trail]; exact htr⟩
  | cont =>
      dsimp only
      rcases hs1 with ⟨hne, _⟩ | htr1
      · exact absurd rfl hne
      rcases h2 : step2_find_hs_code data st1 with ⟨r2, st2⟩
      have hs2 := step2_shape data st1
      rw [h2] at hs2
      cases r2 with
      | halt reason2 =>
          dsimp only
          left
          rcases hs2 with ⟨_, htr⟩ | ⟨htr, _⟩
          · exact ⟨1, by norm_num, by rw [finalize_trail, htr]; exact htr1⟩
          · exact ⟨2, by norm_num, by rw [finalize_trail, htr, htr1]; rfl⟩
      | cont =>
          rcases hs2 with ⟨hne2, _⟩ | ⟨htr2, hhs2⟩
          · exact absurd rfl hne2
          dsimp only
          have htr3 : (step3_check_fta_rules tbl st2).analysis_steps = st2.analysis_steps ++ [3] :=
            step3_trail tbl st2 hhs2
          cases h4 : step4_identify_materials data (step3_check_fta_rules tbl st2) with
          | error e =>
              obtain ⟨msg, ste⟩ := e
              have hte : ste.analysis_steps = (step3_check_fta_rules tbl st2).analysis_steps :=
                step4_err_trail data _ _ h4
              dsimp only
              left
              refine ⟨3, by norm_num, ?_⟩
              rw [finalize_trail, hte, htr3, htr2, htr1]
              rfl
          | ok st4 =>
              have htr4 : st4.analysis_steps =
                  (step3_check_fta_rules tbl st2).analysis_steps ++ [4] :=
                step4_ok_trail data _ st4 h4
              dsimp only
              rcases h6 : step6_check_heading_6406 (step5_check_material_hs_codes st4)
                with ⟨has6, st6⟩
              have htr6 : st6.analysis_steps =
                  (step5_check_material_hs_codes st4).analysis_steps ++ [6] := by
                have h := step6_trail (step5_check_material_hs_codes st4)
                rw [h6] at h
                exact h
              cases has6 with
              | false =>
                  rw [if_neg (by simp)]
                  left
                  refine ⟨6, by norm_num, ?_⟩
                  rw [finalize_trail, htr6, step5_trail, htr4, htr3, htr2, htr1]
                  rfl
              | true =>
                  rw [if_pos rfl]
                  rcases h7 : step7_cost_analysis st6 with ⟨rec7, st7⟩
                  have htr7 : st7.analysis_steps = st6.analysis_steps ++ [7] := by
                    have h := step7_trail st6
                    rw [h7] at h
                    exact h
                  have hrec : st7.step7_record = some rec7 := by
                    have h := step7_record_set st6
                    rw [h7] at h
                    exact h
                  dsimp only
                  right
                  constructor
                  · by_cases hp : rec7.percentage ≤ 10
                    · rw [if_pos hp, finalize_trail, htr7, htr6, step5_trail, htr4, htr3,
                        htr2, htr1]
                      rfl
                    · rw [if_neg hp, finalize_trail, htr7, htr6, step5_trail, htr4, htr3,
                        htr2, htr1]
                      rfl
                  · refine ⟨rec7, ?_, ?_⟩
                    · by_cases hp : rec7.percentage ≤ 10
                      · rw [if_pos hp, finalize_step7record, hrec]
                      · rw [if_neg hp, finalize_step7record, hrec]
                    · by_cases hp : rec7.percentage ≤ 10
                      · rw [if_pos hp, finalize_result, if_pos hp]
                      · rw [if_neg hp, finalize_result, if_neg hp]

/-! ## Claim C7 -/

/-- C7: for every run of `analyze_origin` (including early terminations and
runs ending in verdict `error`), the sequence of step numbers in the
recorded audit trail is exactly an initial segment `1, 2, ..., k` of
`1..7` — strictly increasing, no gaps, no repeats, no step skipped once
reached; entries are only appended, never removed or reordered. -/
theorem C7_audit_trail (reg : List RegistryEntry) (tbl : FTARuleTable)
    (bhv : EnrichBehavior) (data : List Row) :
    ∃ k, k ≤ 7 ∧ (analyze_origin reg tbl bhv data).analysis_steps = List.range' 1 k := by
  rcases analyze_shape reg tbl bhv data with ⟨k, hk, h⟩ | ⟨h, _⟩
  · exact ⟨k, by omega, h⟩
  · exact ⟨7, by omega, h⟩

/-! ## Claim C2 -/

/-- Rule table of the C2 counterexample: the final HS code key carries
threshold 5. -/
def c2_tbl : FTARuleTable := [("640610", { threshold := some ⟨5, 1⟩ })]

/-- Input rows whose step-7 percentage is 8 (0.8 of a 10.0 total). -/
def c2_rows : List Row :=
  [ { manufacturer := some "Acme", country_of_origin := some "VN" }
  , { hs_code := some "640610", material_name := some "Sole"
    , country_of_origin := some "CN", cost_per_pair := some (.num ⟨4, 5⟩) }
  , { hs_code := some "420100", material_name := some "Strap"
    , country_of_origin := some "CN", cost_per_pair := some (.num ⟨46, 5⟩) } ]

/-- C2 counterexample: with a rule table giving threshold 5 for the final
HS code "640610" and a case whose critical-heading percentage is 8, the
claim demands `non_originating` (8 > 5), but `analyze_origin` compares
against the hardcoded 10 and returns `originating`. -/
theorem C2_counterexample :
    (analyze_origin [] c2_tbl (.ok none none) c2_rows).final_hs_code = some "640610" ∧
    get_threshold_for_hs_code c2_tbl "640610" = ⟨5, 1⟩ ∧
    ((analyze_origin [] c2_tbl (.ok none none) c2_rows).step7_record.map
      Step7Record.percentage) = some ⟨8, 1⟩ ∧
    ¬ ((⟨8, 1⟩ : Frac) ≤ ⟨5, 1⟩) ∧
    (analyze_origin [] c2_tbl (.ok none none) c2_rows).final_result =
      some Verdict.originating := by decide

/-- C2 (amended): for every case that reaches step 7, the final verdict
compares the computed critical-heading percentage against the fixed
constant 10 — inclusive at equality — regardless of the threshold the FTA
rule table resolves for the final HS code. -/
theorem C2_amended (reg : List RegistryEntry) (tbl : FTARuleTable)
    (bhv : EnrichBehavior) (data : List Row)
    (h7 : 7 ∈ (analyze_origin reg tbl bhv data).analysis_steps) :
    ∃ r7, (analyze_origin reg tbl bhv data).step7_record = some r7 ∧
      (analyze_origin reg tbl bhv data).final_result =
        some (if r7.percentage ≤ 10 then Verdict.originating else Verdict.non_originating) := by
  rcases analyze_shape reg tbl bhv data with ⟨k, hk, h⟩ | ⟨_, r7, hr, hv⟩
  · rw [h, List.mem_range'_1] at h7
    omega
  · exact ⟨r7, hr, hv⟩

/-- Witness for C2 (amended) at a concrete run that reaches step 7. -/
theorem C2_witness :
    ∃ r7, (analyze_origin [] [] (.ok none none) c2_rows).step7_record = some r7 ∧
      (analyze_origin [] [] (.ok none none) c2_rows).final_result =
        some (if r7.percentage ≤ 10 then Verdict.originating else Verdict.non_originating) :=
  C2_amended [] [] (.ok none none) c2_rows (by decide)

/-! ## Claim C1 -/

/-- C1 counterexample: on a row sequence with no manufacturer name and no
manufacturer identifier, `analyze_origin` terminates before step 2 and
records the `manufacturer` missing-field flag, but the final verdict is
`non_originating`, not `incomplete` as the claim states. -/
theorem C1_counterexample :
    (analyze_origin [] [] (.ok none none) [({} : Row)]).final_result =
      some Verdict.non_originating ∧
    (analyze_origin [] [] (.ok none none) [({} : Row)]).final_result ≠
      some Verdict.incomplete ∧
    (analyze_origin [] [] (.ok none none) [({} : Row)]).analysis_steps = [] ∧
    "manufacturer" ∈ (analyze_origin [] [] (.ok none none) [({} : Row)]).session_missing_fields := by
  decide

/-- C1 (amended): whenever step 1 cannot establish the manufacturer from
data — no name and no identifier anywhere, or the manufacturer found in
neither the registry nor a declared country field — `analyze_origin`
terminates before step 2 with final verdict `non_originating` (not
`incomplete`) and records the corresponding missing-field flag. -/
theorem C1_amended (reg : List RegistryEntry) (tbl : FTARuleTable)
    (bhv : EnrichBehavior) (data : List Row) :
    (scanFirstField Row.manufacturer data = "" ∧ scanFirstField Row.manufacturer_id data = "" →
      (analyze_origin reg tbl bhv data).final_result = some Verdict.non_originating ∧
      (analyze_origin reg tbl bhv data).analysis_steps = [] ∧
      "manufacturer" ∈ (analyze_origin reg tbl bhv data).session_missing_fields) ∧
    (¬(scanFirstField Row.manufacturer data = "" ∧ scanFirstField Row.manufacturer_id data = "") →
      (lookup reg (scanFirstField Row.manufacturer data)
        (scanFirstField Row.manufacturer_id data)).found = false →
      step1_declared_country data = "" →
      (analyze_origin reg tbl bhv data).final_result = some Verdict.non_originating ∧
      (analyze_origin reg tbl bhv data).analysis_steps = [1] ∧
      "manufacturer_country (or manufacturers.csv entry)" ∈
        (analyze_origin reg tbl bhv data).session_missing_fields) := by
  constructor
  · intro h
    have hstep : step1_check_manufacturer reg data ({} : SessionState) =
        (.halt .manufacturerMissing,
         { ({} : SessionState) with missing_fields := ["manufacturer"] }) := by
      simp only [step1_check_manufacturer]
      rw [if_pos h]
      rfl
    unfold analyze_origin
    rw [hstep]
    refine ⟨finalize_result _ _ _ _, ?_, ?_⟩
    · rw [finalize_trail]
    · rw [finalize_missing]
      simp
  · intro hnm hlk hdc
    have key : (step1_check_manufacturer reg data ({} : SessionState)).1 =
          .halt .manufacturerUnverified ∧
        ((step1_check_manufacturer reg data ({} : SessionState)).2).analysis_steps = [1] ∧
        "manufacturer_country (or manufacturers.csv entry)" ∈
          ((step1_check_manufacturer reg data ({} : SessionState)).2).missing_fields := by
      simp only [step1_check_manufacturer]
      rw [if_neg hnm, if_neg (by simp [hlk]), if_neg (by simp [hdc])]
      refine ⟨rfl, ?_, ?_⟩
      · by_cases hman : scanFirstField Row.manufacturer data = "" <;> simp [hman]
      · by_cases hman : scanFirstField Row.manufacturer data = "" <;> simp [hman]
    unfold analyze_origin
    rcases hp : step1_check_manufacturer reg data ({} : SessionState) with ⟨r1, st1⟩
    rw [hp] at key
    obtain ⟨hr1, htr, hmem⟩ := key
    cases r1 with
    | cont => exact absurd hr1 (by simp)
    | halt rr =>
        refine ⟨finalize_result _ _ _ _, ?_, ?_⟩
        · rw [finalize_trail]; exact htr
        · rw [finalize_missing]; exact hmem

/-- Witness for C1 (amended): both failure shapes at concrete inputs. -/
theorem C1_witness :
    ((analyze_origin [] [] (.ok none none) [({} : Row)]).final_result =
        some Verdict.non_originating ∧
      (analyze_origin [] [] (.ok none none) [({} : Row)]).analysis_steps = [] ∧
      "manufacturer" ∈
        (analyze_origin [] [] (.ok none none) [({} : Row)]).session_missing_fields) ∧
    ((analyze_origin [] [] (.ok none none) [{ manufacturer := some "Acme" }]).final_result =
        some Verdict.non_originating ∧
      (analyze_origin [] [] (.ok none none) [{ manufacturer := some "Acme" }]).analysis_steps = [1] ∧
      "manufacturer_country (or manufacturers.csv entry)" ∈
        (analyze_origin [] [] (.ok none none)
          [{ manufacturer := some "Acme" }]).session_missing_fields) :=
  ⟨(C1_amended [] [] (.ok none none) [({} : Row)]).1 (by decide),
   (C1_amended [] [] (.ok none none) [{ manufacturer := some "Acme" }]).2
     (by decide) (by decide) (by decide)⟩

/-! ## Claim C3 -/

/-- C3: contrary to the claim (and to the comment in the source, which says
HS codes should be 4, 6, 8, or 10 digits), `is_valid_hs_code` matches the
regex `^\d{4,10}$` and therefore accepts the 5-digit code "12345"; 7- and
9-digit codes are accepted likewise. -/
theorem C3_code_eval :
    is_valid_hs_code "12345" = true ∧
    (stripSeparators "12345").length = 5 ∧
    is_valid_hs_code "1234567" = true ∧
    is_valid_hs_code "123456789" = true := by decide

/-! ## Claim C8 -/

/-- C8: finalization sets the verdict, reason, missing-field list and
completion flag from its arguments alone, before any enrichment call is
attempted; a failure raised by the enrichment service (any `EnrichBehavior`
constructor, including the raising ones) is caught and swallowed, leaving
those fields — and every other session field except the two optional
enrichment texts — exactly as set. -/
theorem C8_finalize_frame (bhv : EnrichBehavior) (st : SessionState)
    (v : Verdict) (r : Reason) :
    (finalize_analysis bhv st v r).final_result = some v ∧
    (finalize_analysis bhv st v r).result_reason = some r ∧
    (finalize_analysis bhv st v r).session_missing_fields = st.missing_fields ∧
    (finalize_analysis bhv st v r).completed = true ∧
    (finalize_analysis bhv st v r).manufacturer = st.manufacturer ∧
    (finalize_analysis bhv st v r).manufacturer_is_vietnamese = st.manufacturer_is_vietnamese ∧
    (finalize_analysis bhv st v r).final_hs_code = st.final_hs_code ∧
    (finalize_analysis bhv st v r).analysis_steps = st.analysis_steps ∧
    (finalize_analysis bhv st v r).applicable_rules = st.applicable_rules ∧
    (finalize_analysis bhv st v r).materials = st.materials ∧
    (finalize_analysis bhv st v r).missing_fields = st.missing_fields ∧
    (finalize_analysis bhv st v r).step7_record = st.step7_record :=
  finalize_spec bhv st v r

/-! ## Claim C6 -/

/-- C6: whenever the registry lookup (by identifier, then by name) finds an
entry, the Vietnam status returned by the registry alone decides step 1's
outcome — proceed exactly when the registry says Vietnam — and the recorded
Vietnam flag is the registry's; no declared country field of the rows is
consulted. -/
theorem C6_registry_authoritative (reg : List RegistryEntry) (data : List Row)
    (st : SessionState)
    (hnm : ¬(scanFirstField Row.manufacturer data = "" ∧
      scanFirstField Row.manufacturer_id data = ""))
    (hfound : (lookup reg (scanFirstField Row.manufacturer data)
      (scanFirstField Row.manufacturer_id data)).found = true) :
    (step1_check_manufacturer reg data st).1 =
      (if (lookup reg (scanFirstField Row.manufacturer data)
            (scanFirstField Row.manufacturer_id data)).is_vietnam
       then StepRes.cont else StepRes.halt Reason.registryNotVietnam) ∧
    ((step1_check_manufacturer reg data st).2).manufacturer_is_vietnamese =
      some (lookup reg (scanFirstField Row.manufacturer data)
        (scanFirstField Row.manufacturer_id data)).is_vietnam := by
  simp only [step1_check_manufacturer]
  rw [if_neg hnm, if_pos hfound]
  cases hv : (lookup reg (scanFirstField Row.manufacturer data)
      (scanFirstField Row.manufacturer_id data)).is_vietnam <;> simp [hv]

/-- Registry of the C6 witness: one Vietnam-located entry with identifier
"MFG-001". -/
def c6_registry : List RegistryEntry :=
  [{ manufacturer_id := "MFG-001", name := "Acme Footwear", country := "Vietnam",
     country_code := "VN" }]

/-- Rows of the C6 witness: only a manufacturer identifier, no
manufacturer_country anywhere. -/
def c6_rows : List Row := [{ manufacturer_id := some "MFG-001" }]

/-- Witness for C6: lookup by identifier "MFG-001" against a Vietnam-located
entry, with no manufacturer_country field, yields Vietnam status true from
the registry alone. -/
theorem C6_witness :
    (step1_check_manufacturer c6_registry c6_rows {}).1 = StepRes.cont ∧
    ((step1_check_manufacturer c6_registry c6_rows {}).2).manufacturer_is_vietnamese =
      some true ∧
    (lookup c6_registry (scanFirstField Row.manufacturer c6_rows)
      (scanFirstField Row.manufacturer_id c6_rows)).is_vietnam = true := by
  have h := C6_registry_authoritative c6_registry c6_rows {} (by decide) (by decide)
  refine ⟨?_, ?_, by decide⟩
  · rw [h.1]; decide
  · rw [h.2]; decide

/-! ## Claim C9 -/

/-- C9: when no row supplies a manufacturer_country value, the declared
country step 1 falls back to is the country_of_origin of the first row that
has one; so if the manufacturer is absent from the registry, a name or
identifier is present, and that first country_of_origin reads "VN", step 1
resolves the manufacturer as Vietnamese — even though the field describes a
material. -/
theorem C9_country_fallback (reg : List RegistryEntry) (data : List Row)
    (st : SessionState)
    (hmc : scanFirstField Row.manufacturer_country data = "")
    (hnm : ¬(scanFirstField Row.manufacturer data = "" ∧
      scanFirstField Row.manufacturer_id data = ""))
    (hlk : (lookup reg (scanFirstField Row.manufacturer data)
      (scanFirstField Row.manufacturer_id data)).found = false)
    (hco : fallbackCountry data = "VN") :
    (step1_check_manufacturer reg data st).1 = StepRes.cont ∧
    ((step1_check_manufacturer reg data st).2).manufacturer_is_vietnamese = some true := by
  have hdc : step1_declared_country data = "VN" := by
    simp only [step1_declared_country]
    rw [if_pos hmc]
    exact hco
  have hc1 : ("VN" : String) ≠ "" := by decide
  have hc2 : plower (pstrip "VN") ∈ ["vietnam", "viet nam"] ∨ plower (pstrip "VN") = "vn" := by
    decide
  simp only [step1_check_manufacturer]
  rw [if_neg hnm, if_neg (by simp [hlk]), hdc, if_pos hc1, if_pos hc2]
  refine ⟨rfl, ?_⟩
  show some (decide (plower (pstrip "VN") ∈ ["vietnam", "viet nam"] ∨
    plower (pstrip "VN") = "vn")) = some true
  decide

/-- Rows of the C9 witness: a manufacturer name with no country, then a
material row whose country_of_origin is "VN". -/
def c9_rows : List Row :=
  [ { manufacturer := some "Acme" }
  , { material_name := some "Sole", country_of_origin := some "VN",
      hs_code := some "640610" } ]

/-- Witness for C9 at concrete rows and the empty registry. -/
theorem C9_witness :
    (step1_check_manufacturer [] c9_rows {}).1 = StepRes.cont ∧
    ((step1_check_manufacturer [] c9_rows {}).2).manufacturer_is_vietnamese = some true :=
  C9_country_fallback [] c9_rows {} (by decide) (by decide) (by decide) (by decide)

/-! ## Claim C10 -/

/-- A problematic material whose stored HS code is the separator-formatted
"6406.10". -/
def c10_material : Material :=
  { material_name := "Sole", country_of_origin := "CN", hs_code := "6406.10",
    cost_per_pair := some ⟨1, 1⟩, is_problematic := true, analysis_notes := "" }

/-- Session state holding only the separator-formatted material. -/
def c10_state : SessionState := { materials := [c10_material] }

/-- C10 counterexample: the claim says a material with HS code "6406.10" is
not counted under heading 6406 in steps 6 and 7; but the raw string
"6406.10" does start with "6406", so the material is counted in both steps
(and the HS service, which strips separators, counts it too). -/
theorem C10_counterexample :
    (step6_check_heading_6406 c10_state).1 = true ∧
    c10_material ∈ step7_selected c10_state ∧
    ((step7_cost_analysis c10_state).1).materials_6406_cost = ⟨1, 1⟩ ∧
    pstartswith "6406.10" "6406" = true ∧
    is_heading_6406 "6406.10" = true := by decide

/-- C10 (amended): the critical-heading test of steps 6 and 7 is a raw
string-prefix comparison on the HS code exactly as stored, so both steps
count exactly the problematic materials whose stored code literally starts
with "6406"; a code with a separator inside the first four digits, such as
"64.06.10", is excluded from both steps even though the HS classification
service (which strips spaces and dots) places it under heading 6406, while
a code like "6406.10" is counted by both steps and by the service. -/
theorem C10_amended (st : SessionState) :
    step6_selected st =
      st.materials.filter (fun m => m.is_problematic && pstartswith m.hs_code "6406") ∧
    step7_selected st =
      st.materials.filter (fun m => m.is_problematic && pstartswith m.hs_code "6406") ∧
    (pstartswith "64.06.10" "6406" = false ∧ is_heading_6406 "64.06.10" = true) ∧
    (pstartswith "6406.10" "6406" = true ∧ is_heading_6406 "6406.10" = true) := by
  refine ⟨?_, rfl, by decide, by decide⟩
  simp only [step6_selected, List.filter_filter]
  apply List.filter_congr
  intro m _
  by_cases h : m.hs_code = ""
  · simp [h, show pstartswith "" "6406" = false from by decide]
  · simp [h, Bool.and_comm]

/-! ## Claim C4 -/

/-- Closed form of the step-7 accumulation loop, for any membership list `S`
that agrees with the raw heading-6406 test on the traversed materials: the
first component sums the costs of the critical-heading materials that have
one, the second sums the costs of all materials that have one, and the
third appends the names of the materials without a cost. -/
theorem step7_fold_spec (S : List Material) :
    ∀ L : List Material,
      (∀ m ∈ L, m ∈ S ↔ (m.is_problematic && pstartswith m.hs_code "6406") = true) →
      ∀ (n t : Frac) (miss : List String),
        L.foldl (step7_step S) (n, t, miss) =
          (((L.filter (fun m => m.is_problematic && pstartswith m.hs_code "6406")).filterMap
              Material.cost_per_pair).foldl Frac.add n,
           (L.filterMap Material.cost_per_pair).foldl Frac.add t,
           miss ++ (L.filter (fun m => m.cost_per_pair.isNone)).map Material.material_name) := by
  intro L
  induction L with
  | nil => intro _ n t miss; simp
  | cons m L ih =>
      intro hS n t miss
      have hm := hS m (List.mem_cons_self _ _)
      have hL : ∀ x ∈ L, x ∈ S ↔ (x.is_problematic && pstartswith x.hs_code "6406") = true :=
        fun x hx => hS x (List.mem_cons_of_mem _ hx)
      simp only [List.foldl_cons]
      cases hc : m.cost_per_pair with
      | some c =>
          by_cases hp : (m.is_problematic && pstartswith m.hs_code "6406") = true
          · rw [show step7_step S (n, t, miss) m = (Frac.add n c, Frac.add t c, miss) by
              simp [step7_step, hc, hm.mpr hp]]
            rw [ih hL]
            simp [List.filter_cons, hp, hc]
          · have hnot : ¬(m ∈ S) := fun hmem => hp (hm.mp hmem)
            rw [show step7_step S (n, t, miss) m = (n, Frac.add t c, miss) by
              simp [step7_step, hc, hnot]]
            rw [ih hL]
            simp [List.filter_cons, hp, hc]
      | none =>
          rw [show step7_step S (n, t, miss) m = (n, t, miss ++ [m.material_name]) by
            simp [step7_step, hc]]
          rw [ih hL]
          by_cases hp : (m.is_problematic && pstartswith m.hs_code "6406") = true <;>
            simp [List.filter_cons, hp, hc]

/-- C4: in step 7, a material whose cost is present contributes its cost to
the total-cost denominator (and to the numerator exactly when it passes the
raw heading-6406 test), a material whose cost is absent is excluded from
both sums and lands in the missing-field list under a key built from its
material name, and a zero total makes the percentage 0. -/
theorem C4_cost_analysis (st : SessionState) :
    ((step7_cost_analysis st).1).total_cost =
      Frac.lsum (st.materials.filterMap Material.cost_per_pair) ∧
    ((step7_cost_analysis st).1).materials_6406_cost =
      Frac.lsum ((st.materials.filter
        (fun m => m.is_problematic && pstartswith m.hs_code "6406")).filterMap
          Material.cost_per_pair) ∧
    ((step7_cost_analysis st).1).missing_cost_data =
      (st.materials.filter (fun m => m.cost_per_pair.isNone)).map Material.material_name ∧
    (∀ m ∈ st.materials, m.cost_per_pair = none →
      ("cost_per_pair_for_" ++ m.material_name) ∈
        ((step7_cost_analysis st).2).missing_fields) ∧
    (((step7_cost_analysis st).1).total_cost = 0 →
      ((step7_cost_analysis st).1).percentage = 0) := by
  have hS : ∀ m ∈ st.materials,
      m ∈ step7_selected st ↔ (m.is_problematic && pstartswith m.hs_code "6406") = true := by
    intro m hm
    simp [step7_selected, List.mem_filter, hm]
  have hfold := step7_fold_spec (step7_selected st) st.materials hS 0 0 []
  simp only [step7_cost_analysis, hfold]
  refine ⟨rfl, rfl, by simp, ?_, ?_⟩
  · intro m hm hcost
    refine List.mem_append.mpr (Or.inr ?_)
    refine List.mem_map.mpr ⟨m.material_name, ?_, rfl⟩
    simp only [List.nil_append]
    exact List.mem_map.mpr ⟨m, List.mem_filter.mpr ⟨hm, by simp [hcost]⟩, rfl⟩
  · intro h0
    rw [h0, if_neg (by decide)]

/-- Critical-heading material of the C4 witness (cost 1.5). -/
def c4_m1 : Material :=
  { material_name := "Sole", country_of_origin := "CN", hs_code := "640610",
    cost_per_pair := some ⟨3, 2⟩, is_problematic := true, analysis_notes := "" }

/-- Material of the C4 witness whose cost is absent. -/
def c4_m2 : Material :=
  { material_name := "Lining", country_of_origin := "CN", hs_code := "420100",
    cost_per_pair := none, is_problematic := true, analysis_notes := "" }

/-- Session state of the C4 witness. -/
def c4_state : SessionState := { materials := [c4_m1, c4_m2] }

/-- Session state of the C4 witness with no known costs at all (total 0). -/
def c4_zero_state : SessionState := { materials := [c4_m2] }

/-- Witness for C4 at concrete material lists: the costless material is
flagged and excluded (total is 1.5, not 1.5 + 0), and a zero total gives
percentage 0. -/
theorem C4_witness :
    ("cost_per_pair_for_Lining" ∈ ((step7_cost_analysis c4_state).2).missing_fields) ∧
    ((step7_cost_analysis c4_state).1).total_cost = ⟨3, 2⟩ ∧
    ((step7_cost_analysis c4_zero_state).1).percentage = 0 := by
  refine ⟨?_, ?_, ?_⟩
  · exact (C4_cost_analysis c4_state).2.2.2.1 c4_m2 (by decide) rfl
  · exact ((C4_cost_analysis c4_state).1).trans (by decide)
  · exact (C4_cost_analysis c4_zero_state).2.2.2.2 (by decide)

/-! ## Claim C5 -/

/-- The three input rows of the worked example: a manufacturer row declaring
country "VN", and two material rows from "CN" with costs 1.5 and 8.5. -/
def c5_rows : List Row :=
  [ { manufacturer := some "Acme", country_of_origin := some "VN" }
  , { hs_code := some "640610", material_name := some "Sole"
    , country_of_origin := some "CN", cost_per_pair := some (.num ⟨3, 2⟩) }
  , { hs_code := some "420100", material_name := some "Strap"
    , country_of_origin := some "CN", cost_per_pair := some (.num ⟨17, 2⟩) } ]

/-- Session state after step 1 of the worked example (computed against the
empty registry, where the lookup misses). -/
def c5_st1 : SessionState := (step1_check_manufacturer [] c5_rows {}).2

/-- Session state after step 2 of the worked example. -/
def c5_st2 : SessionState := (step2_find_hs_code c5_rows c5_st1).2

/-- Session state after step 3 of the worked example (built-in default rule
table). -/
def c5_st3 : SessionState := step3_check_fta_rules default_fta_rules c5_st2

/-- Session state after step 4 of the worked example. -/
def c5_st4 : SessionState :=
  match step4_identify_materials c5_rows c5_st3 with
  | .ok s => s
  | .error e => e.2

/-- Session state after steps 5 and 6 of the worked example. -/
def c5_st6 : SessionState :=
  (step6_check_heading_6406 (step5_check_material_hs_codes c5_st4)).2

/-- The step-7 record of the worked example. -/
def c5_rec7 : Step7Record := (step7_cost_analysis c5_st6).1

/-- Session state after step 7 of the worked example. -/
def c5_st7 : SessionState := (step7_cost_analysis c5_st6).2

/-- C5: on the worked-example rows, with Acme missing from the registry (the
lookup finds nothing) and the built-in default rule table, the workflow
resolves the manufacturer as Vietnamese via the declared-country fallback,
fixes final HS code "640610", creates two problematic materials, finds one
critical-heading material (Sole, cost 1.5) of a total cost 10, computes
percentage 15 against the 10 threshold, and ends `non_originating`. -/
theorem C5_worked_example (reg : List RegistryEntry) (bhv : EnrichBehavior)
    (hreg : (lookup reg "Acme" "").found = false) :
    (analyze_origin reg default_fta_rules bhv c5_rows).manufacturer_is_vietnamese =
      some true ∧
    (analyze_origin reg default_fta_rules bhv c5_rows).final_hs_code = some "640610" ∧
    (analyze_origin reg default_fta_rules bhv c5_rows).materials.length = 2 ∧
    (∀ m ∈ (analyze_origin reg default_fta_rules bhv c5_rows).materials,
      m.is_problematic = true) ∧
    (analyze_origin reg default_fta_rules bhv c5_rows).step7_record = some c5_rec7 ∧
    c5_rec7.materials_6406.map (fun m => (m.material_name, m.cost_per_pair)) =
      [("Sole", some ⟨3, 2⟩)] ∧
    c5_rec7.total_cost = ⟨10, 1⟩ ∧
    c5_rec7.percentage = ⟨15, 1⟩ ∧
    get_threshold_for_hs_code default_fta_rules "640610" = ⟨10, 1⟩ ∧
    (analyze_origin reg default_fta_rules bhv c5_rows).final_result =
      some Verdict.non_originating := by
  have hm : scanFirstField Row.manufacturer c5_rows = "Acme" := by decide
  have hid : scanFirstField Row.manufacturer_id c5_rows = "" := by decide
  have hc0 : ¬(("Acme" : String) = "" ∧ True) := by decide
  have hcA : ("Acme" : String) ≠ "" := by decide
  have hcF : ¬((lookup reg "Acme" "").found = true) := by simp [hreg]
  have hcC : step1_declared_country c5_rows ≠ "" := by decide
  have hcV : plower (pstrip (step1_declared_country c5_rows)) ∈ ["vietnam", "viet nam"] ∨
      plower (pstrip (step1_declared_country c5_rows)) = "vn" := by decide
  have h1 : step1_check_manufacturer reg c5_rows {} = (.cont, c5_st1) := by
    simp only [step1_check_manufacturer, hm, hid]
    rw [if_neg hc0, if_neg hcF, if_pos hcC, if_pos hcV, if_pos hcA]
    decide
  unfold analyze_origin
  rw [h1]
  dsimp only
  have h2 : step2_find_hs_code c5_rows c5_st1 = (.cont, c5_st2) := by decide
  rw [h2]
  dsimp only
  have h3 : step3_check_fta_rules default_fta_rules c5_st2 = c5_st3 := by decide
  rw [h3]
  have h4 : step4_identify_materials c5_rows c5_st3 = .ok c5_st4 := by rfl
  rw [h4]
  dsimp only
  have h6 : step6_check_heading_6406 (step5_check_material_hs_codes c5_st4) =
      (true, c5_st6) := by decide
  rw [h6]
  dsimp only
  rw [if_pos rfl]
  have h7 : step7_cost_analysis c5_st6 = (c5_rec7, c5_st7) := by decide
  rw [h7]
  dsimp only
  rw [if_neg (show ¬(c5_rec7.percentage ≤ 10) from by decide)]
  have hf := finalize_spec bhv c5_st7 .non_originating (.pctExceedsThreshold c5_rec7.percentage)
  refine ⟨?_, ?_, ?_, ?_, ?_, by decide, by decide, by decide, by decide, ?_⟩
  · rw [hf.2.2.2.2.2.1]; decide
  · rw [hf.2.2.2.2.2.2.1]; decide
  · rw [hf.2.2.2.2.2.2.2.2.2.1]; decide
  · rw [hf.2.2.2.2.2.2.2.2.2.1]; decide
  · rw [hf.2.2.2.2.2.2.2.2.2.2.2]; decide
  · exact hf.1

/-- Witness for C5 at the empty registry and a concrete enrichment
behavior. -/
theorem C5_witness :
    (analyze_origin [] default_fta_rules (.ok none none) c5_rows).final_result =
      some Verdict.non_originating ∧
    (analyze_origin [] default_fta_rules (.ok none none) c5_rows).manufacturer_is_vietnamese =
      some true :=
  ⟨(C5_worked_example [] (.ok none none) (by decide)).2.2.2.2.2.2.2.2.2,
   (C5_worked_example [] (.ok none none) (by decide)).1⟩

end OriginDetective
